import Mathlib

/-!
Shallow embedding of the concurrency / resilience / normalization layer of the
chatdelta-go library, together with theorems settling the specified claims.

Conventions of the embedding:
* Go slices become `List`; Go struct mutation becomes explicit state passing.
* `time.Duration` values are modelled as nanosecond counts: `Nat` where the
  source only ever produces nonnegative in-range durations, and `Int` with an
  explicit two's-complement wrap where the source's int64 arithmetic can
  overflow (the exponential-backoff delay product).
* A Go function returning `(T, error)` becomes `T × Option ClientError` when
  the source stores both components, or `Except ClientError T` when exactly one
  side is meaningful; per the capability contract (spec §6) adapters raise
  errors of the `ClientError` taxonomy, so `error` values are modelled as
  `ClientError`.
* Goroutine fan-out with disjoint result slots under a join barrier becomes a
  pure per-slot computation: slot i is a function of client i alone, which is
  exactly the positional-stability guarantee under scrutiny.
* Context cancellation is not modelled; all theorems concern executions in
  which the cancellation token never fires.
-/

namespace ChatDelta

/-- Error categories, from `errors.go` (`ErrorType` constants). -/
inductive ErrorType where
  | network
  | api
  | auth
  | config
  | parse
  | stream
deriving DecidableEq

/-- A client error, from `errors.go` (`ClientError`). The Go `Cause error`
field is modelled as an opaque optional payload; no classification ever
consults it. The Go field `Type` is rendered lowercase `type`. -/
structure ClientError where
  type : ErrorType
  code : String
  message : String
  cause : Option String
deriving DecidableEq

/-- From `errors.go` `IsRetryableError`, restricted to the `*ClientError`
branch of the Go type switch (the capability contract only raises taxonomy
errors). -/
def IsRetryableError (e : ClientError) : Bool :=
  match e.type with
  | ErrorType.network => true
  | ErrorType.api => e.code == "rate_limit" || e.code == "server_error"
  | _ => false

/-- From `errors.go` `IsAuthenticationError`, restricted to the
`*ClientError` branch. -/
def IsAuthenticationError (e : ClientError) : Bool :=
  e.type == ErrorType.auth

/-- From the utilities file, `NewConfigError` (helper used by
`ExecuteParallelConversation`). -/
def NewConfigError (message : String) : ClientError :=
  { type := ErrorType.config, code := "config_error", message := message,
    cause := none }

/-- From `errors.go` `NewInvalidParameterError`. -/
def NewInvalidParameterError (parameter value : String) : ClientError :=
  { type := ErrorType.config, code := "invalid_parameter",
    message := "invalid parameter " ++ parameter ++ ": " ++ value,
    cause := none }

/-- A single message of a conversation, from the types file (`Message`). -/
structure Message where
  role : String
  content : String
deriving DecidableEq

/-- Ordered message history, from the types file (`Conversation`). -/
structure Conversation where
  Messages : List Message
deriving DecidableEq

/-- From the types file, `NewConversation`. -/
def NewConversation : Conversation :=
  { Messages := [] }

/-- From the types file, `Conversation.AddMessage` (mutation rendered as
state passing). -/
def Conversation.AddMessage (c : Conversation) (role content : String) :
    Conversation :=
  { Messages := c.Messages ++ [{ role := role, content := content }] }

/-- From the types file, `Conversation.AddSystemMessage`. -/
def Conversation.AddSystemMessage (c : Conversation) (content : String) :
    Conversation :=
  c.AddMessage "system" content

/-- From the types file, `Conversation.AddUserMessage`. -/
def Conversation.AddUserMessage (c : Conversation) (content : String) :
    Conversation :=
  c.AddMessage "user" content

/-- From the types file, `Conversation.AddAssistantMessage`. -/
def Conversation.AddAssistantMessage (c : Conversation) (content : String) :
    Conversation :=
  c.AddMessage "assistant" content

/-- Provider metadata, from the types file (`ResponseMetadata`). The Go
`SafetyRatings interface\x7b\x7d` field is modelled as an opaque optional
payload. -/
structure ResponseMetadata where
  ModelUsed : String
  PromptTokens : Int
  CompletionTokens : Int
  TotalTokens : Int
  FinishReason : String
  SafetyRatings : Option String
  RequestID : String
  LatencyMs : Int
deriving DecidableEq

/-- Response text plus metadata, from the types file (`AiResponse`). -/
structure AiResponse where
  Content : String
  Metadata : ResponseMetadata
deriving DecidableEq

/-- One unit of a streaming response, from the types file (`StreamChunk`). -/
structure StreamChunk where
  Content : String
  Finished : Bool
  Metadata : Option ResponseMetadata
deriving DecidableEq

/-- The rollback snippet repeated in `session.go` after a failed client
call: `if len(s.conversation.Messages) > 0 \x7b Messages = Messages[:len-1] \x7d`. -/
def rollbackLastMessage (c : Conversation) : Conversation :=
  if c.Messages.length > 0 then { Messages := c.Messages.dropLast } else c

/-- From `session.go` `ChatSession.Send`. The session state is the
conversation; the bound client is passed as the function the call invokes,
returning the `(string, error)` pair of the Go call. The result is the new
conversation paired with the `(string, error)` return of `Send`. -/
def sessionSend (conv : Conversation) (message : String)
    (sendConversation : Conversation → String × Option ClientError) :
    Conversation × String × Option ClientError :=
  let c1 := conv.AddUserMessage message
  let pr := sendConversation c1
  match pr.2 with
  | some e => (rollbackLastMessage c1, "", some e)
  | none => (c1.AddAssistantMessage pr.1, pr.1, none)

/-- From `session.go` `ChatSession.SendWithMetadata`; the Go
`(*AiResponse, error)` return is rendered `Except ClientError AiResponse`. -/
def sessionSendWithMetadata (conv : Conversation) (message : String)
    (sendConversationWithMetadata :
      Conversation → Except ClientError AiResponse) :
    Conversation × Except ClientError AiResponse :=
  let c1 := conv.AddUserMessage message
  match sendConversationWithMetadata c1 with
  | Except.error e => (rollbackLastMessage c1, Except.error e)
  | Except.ok response =>
      (c1.AddAssistantMessage response.Content, Except.ok response)

/-- The draining goroutine of `session.go` `ChatSession.Stream`: it folds
over the chunk sequence, accumulating `fullContent`, and appends an
assistant message each time it sees a chunk with `Finished = true` (the Go
loop does not break there). The finite chunk sequence delivered by the
client channel is modelled as a list. -/
def streamDrain (conv : Conversation) (fullContent : String) :
    List StreamChunk → Conversation
  | [] => conv
  | chunk :: rest =>
      let full2 := fullContent ++ chunk.Content
      let conv2 :=
        if chunk.Finished then conv.AddAssistantMessage full2 else conv
      streamDrain conv2 full2 rest

/-- From `session.go` `ChatSession.Stream`: append the user message, ask the
client for the chunk source, roll back on immediate failure; otherwise the
conversation the session holds once the stream has fully drained is the
`streamDrain` fold. The returned error is the `error` component of `Stream`. -/
def sessionStream (conv : Conversation) (message : String)
    (streamConversation :
      Conversation → Except ClientError (List StreamChunk)) :
    Conversation × Option ClientError :=
  let c1 := conv.AddUserMessage message
  match streamConversation c1 with
  | Except.error e => (rollbackLastMessage c1, some e)
  | Except.ok chunks => (streamDrain c1 "" chunks, none)

/-- One second in nanoseconds (`time.Second`). -/
def second : Nat := 1000000000

/-- Observable outcome of one retry-engine run: the Go return value (`none`
meaning the Go `nil`), the number of times the operation was invoked, and
the successive waits (in nanoseconds) performed between attempts. -/
structure RetryOutcome where
  result : Option ClientError
  invocations : Nat
  delays : List Nat
deriving DecidableEq

/-- The retry loop of the utilities file, shared verbatim (up to the delay
formula) by `ExecuteWithRetry` and `ExecuteWithExponentialBackoff`:
`for attempt := 0; attempt <= retries; attempt++`. Here `attempt` is the Go
loop counter and the structural argument counts the remaining iterations
(`retries - attempt`). The operation is modelled as a function from the
attempt number to its error result, `none` meaning success. In the final
iteration the Go code returns `err` for a non-retryable error and `lastErr`
after the `attempt == retries` break; both equal the error of that attempt,
so the two exits are rendered as one. -/
def retryLoop (op : Nat → Option ClientError) (delayFn : Nat → Nat) :
    Nat → Nat → RetryOutcome
  | attempt, 0 =>
      match op attempt with
      | none => { result := none, invocations := 1, delays := [] }
      | some e => { result := some e, invocations := 1, delays := [] }
  | attempt, remaining+1 =>
      match op attempt with
      | none => { result := none, invocations := 1, delays := [] }
      | some e =>
          if IsRetryableError e then
            let rest := retryLoop op delayFn (attempt + 1) remaining
            { result := rest.result, invocations := rest.invocations + 1,
              delays := delayFn attempt :: rest.delays }
          else { result := some e, invocations := 1, delays := [] }

/-- From the utilities file, `ExecuteWithRetry`: its inter-attempt delay is
the hardwired `time.Duration(attempt+1) * time.Second`. -/
def ExecuteWithRetry (retries : Nat) (op : Nat → Option ClientError) :
    RetryOutcome :=
  retryLoop op (fun attempt => (attempt + 1) * second) 0 retries

/-- Two's-complement wrap into the signed 64-bit range of the Go `int64`
underlying `time.Duration`. -/
def int64wrap (n : Int) : Int :=
  (n + 2 ^ 63) % 2 ^ 64 - 2 ^ 63

/-- The Go conversion `time.Duration(math.Pow(2, float64(attempt)))`:
`math.Pow(2, n)` is the exact power of two for every reachable attempt
count, and the float-to-int64 conversion keeps it exact while it fits in
int64 (attempt up to 62). For larger attempts the Go specification leaves
the out-of-range conversion implementation-defined; the model adopts the
amd64/arm64 result, the minimal int64. -/
def pow2Duration (attempt : Nat) : Int :=
  if attempt ≤ 62 then 2 ^ attempt else -(2 ^ 63)

/-- The delay computation of `ExecuteWithExponentialBackoff`:
`delay := time.Duration(math.Pow(2, float64(attempt))) * baseDelay` is an
int64 product, which wraps on overflow, and the 30-second cap
`if delay > 30*time.Second` is tested against the wrapped (possibly
negative) value — a negative wrapped delay therefore escapes the cap. The
intermediate Go variable `delay` is written out twice here in place of a
let binding. -/
def exponentialBackoffDelay (baseDelay : Int) (attempt : Nat) : Int :=
  if 30 * (second : Int) < int64wrap (pow2Duration attempt * baseDelay) then
    30 * second
  else int64wrap (pow2Duration attempt * baseDelay)

/-- Observable outcome of one `ExecuteWithExponentialBackoff` run; the
delays are signed because the wrapped int64 delay can be negative. -/
structure BackoffOutcome where
  result : Option ClientError
  invocations : Nat
  delays : List Int
deriving DecidableEq

/-- The retry loop of `ExecuteWithExponentialBackoff`, identical in shape
to `retryLoop` (the Go source duplicates the loop across the two retry
functions) but recording the signed int64 delays. -/
def backoffLoop (op : Nat → Option ClientError) (delayFn : Nat → Int) :
    Nat → Nat → BackoffOutcome
  | attempt, 0 =>
      match op attempt with
      | none => { result := none, invocations := 1, delays := [] }
      | some e => { result := some e, invocations := 1, delays := [] }
  | attempt, remaining+1 =>
      match op attempt with
      | none => { result := none, invocations := 1, delays := [] }
      | some e =>
          if IsRetryableError e then
            let rest := backoffLoop op delayFn (attempt + 1) remaining
            { result := rest.result, invocations := rest.invocations + 1,
              delays := delayFn attempt :: rest.delays }
          else { result := some e, invocations := 1, delays := [] }

/-- From the utilities file, `ExecuteWithExponentialBackoff`. -/
def ExecuteWithExponentialBackoff (retries : Nat) (baseDelay : Int)
    (op : Nat → Option ClientError) : BackoffOutcome :=
  backoffLoop op (exponentialBackoffDelay baseDelay) 0 retries

/-- The members of the Go `AIClient` interface consulted by the fan-out
executor; a client is an opaque capability handle, so each member is an
arbitrary function. `sendPrompt` and `sendConversation` return the Go
`(string, error)` pair. -/
structure AIClient where
  name : String
  sendPrompt : String → String × Option ClientError
  sendConversation : Conversation → String × Option ClientError
  supportsConversations : Bool

/-- From the types file, `ParallelResult`. -/
structure ParallelResult where
  ClientName : String
  Result : String
  Error : Option ClientError
deriving DecidableEq

/-- The goroutine body of `ExecuteParallel` for one pre-assigned slot:
`results[index] = ParallelResult\x7bClientName: c.Name(), Result: result,
Error: err\x7d`. -/
def promptSlot (prompt : String) (c : AIClient) : ParallelResult :=
  let pr := c.sendPrompt prompt
  { ClientName := c.name, Result := pr.1, Error := pr.2 }

/-- From the utilities file, `ExecuteParallel`: one task per client, each
writing only its own slot, joined before returning; slot `i` is therefore
the per-client body applied to `clients[i]`. -/
def ExecuteParallel (clients : List AIClient) (prompt : String) :
    List ParallelResult :=
  clients.map (promptSlot prompt)

/-- The goroutine body of `ExecuteParallelConversation` for one slot,
including the fallback for clients that do not support conversations. The Go
code guards `len(conversation.Messages) > 0` and then indexes the last
element; the two steps are fused into `getLast?`. -/
def conversationSlot (conversation : Conversation) (c : AIClient) :
    ParallelResult :=
  let pr :=
    if c.supportsConversations then c.sendConversation conversation
    else
      match conversation.Messages.getLast? with
      | some lastMessage =>
          if lastMessage.role == "user" then c.sendPrompt lastMessage.content
          else ("", some (NewConfigError "no user message found in conversation"))
      | none => ("", some (NewConfigError "empty conversation"))
  { ClientName := c.name, Result := pr.1, Error := pr.2 }

/-- From the utilities file, `ExecuteParallelConversation`. -/
def ExecuteParallelConversation (clients : List AIClient)
    (conversation : Conversation) : List ParallelResult :=
  clients.map (conversationSlot conversation)

/-- From the utilities file, `MergeStreamChunks`: accumulate `result +=
chunk.Content` and break after the first chunk with `Finished = true`; the
Go function always returns a `nil` error. The loop accumulator is rendered
by prepending each fragment to the merge of the remaining chunks. -/
def MergeStreamChunks : List StreamChunk → String × Option ClientError
  | [] => ("", none)
  | chunk :: rest =>
      if chunk.Finished then (chunk.Content, none)
      else
        let r := MergeStreamChunks rest
        (chunk.Content ++ r.1, r.2)

/-- Stated from the words of the specification, for comparison with
`MergeStreamChunks`: the chunks read up to and including the first chunk
with `Finished = true`. -/
def chunksUpToFirstFinished : List StreamChunk → List StreamChunk
  | [] => []
  | chunk :: rest =>
      if chunk.Finished then [chunk]
      else chunk :: chunksUpToFirstFinished rest

/-- From the types file, `ClientConfig`. `Timeout` is a `time.Duration`
(signed nanoseconds, so `Int`); the optional float fields are modelled as
optional rationals, over which the validation comparisons agree with the
float comparisons of the source for every representable value; the
`RetryStrategy` string type is its underlying string. -/
structure ClientConfig where
  Timeout : Int
  Retries : Int
  Temperature : Option Rat
  MaxTokens : Option Int
  TopP : Option Rat
  FrequencyPenalty : Option Rat
  PresencePenalty : Option Rat
  SystemMessage : Option String
  BaseURL : Option String
  RetryStrategy : String
deriving DecidableEq

/-- From the types file, `NewClientConfig`: 30 second timeout, 3 retries,
exponential retry strategy. -/
def NewClientConfig : ClientConfig :=
  { Timeout := 30 * 1000000000, Retries := 3, Temperature := none,
    MaxTokens := none, TopP := none, FrequencyPenalty := none,
    PresencePenalty := none, SystemMessage := none, BaseURL := none,
    RetryStrategy := "exponential" }

/-- From the types file, `ClientConfig.SetTemperature`. -/
def ClientConfig.SetTemperature (c : ClientConfig) (temperature : Rat) :
    ClientConfig :=
  { c with Temperature := some temperature }

/-- From the types file, `ClientConfig.SetTopP`. -/
def ClientConfig.SetTopP (c : ClientConfig) (topP : Rat) : ClientConfig :=
  { c with TopP := some topP }

/-- The guard `config.Temperature != nil && (*config.Temperature < 0 ||
*config.Temperature > 2)` of `ValidateConfig`. -/
def temperatureInvalid : Option Rat → Bool
  | none => false
  | some t => decide (t < 0) || decide (t > 2)

/-- The guard `config.MaxTokens != nil && *config.MaxTokens <= 0` of
`ValidateConfig`. -/
def maxTokensInvalid : Option Int → Bool
  | none => false
  | some m => decide (m ≤ 0)

/-- The guard `config.TopP != nil && (*config.TopP < 0 || *config.TopP > 1)`
of `ValidateConfig`. -/
def topPInvalid : Option Rat → Bool
  | none => false
  | some p => decide (p < 0) || decide (p > 1)

/-- The guard shared by the frequency-penalty and presence-penalty checks of
`ValidateConfig`: set and outside [-2, 2]. -/
def penaltyInvalid : Option Rat → Bool
  | none => false
  | some p => decide (p < -2) || decide (p > 2)

/-- From the utilities file, `ValidateConfig`. The Go code renders the
offending value into the error message (via `Duration.String` and rune
casts); that rendered value string is not modelled and is passed as the
empty string, since no claim concerns the message text. -/
def ValidateConfig (config : ClientConfig) : Option ClientError :=
  if config.Timeout ≤ 0 then
    some (NewInvalidParameterError "timeout" "")
  else if config.Retries < 0 then
    some (NewInvalidParameterError "retries" "")
  else if temperatureInvalid config.Temperature then
    some (NewInvalidParameterError "temperature" "")
  else if maxTokensInvalid config.MaxTokens then
    some (NewInvalidParameterError "max_tokens" "")
  else if topPInvalid config.TopP then
    some (NewInvalidParameterError "top_p" "")
  else if penaltyInvalid config.FrequencyPenalty then
    some (NewInvalidParameterError "frequency_penalty" "")
  else if penaltyInvalid config.PresencePenalty then
    some (NewInvalidParameterError "presence_penalty" "")
  else none

/-- From `errors.go` `NewRateLimitError` with no retry-after hint. -/
def rateLimitError : ClientError :=
  { type := ErrorType.api, code := "rate_limit",
    message := "rate limit exceeded", cause := none }

/-- A concrete operation that fails with a rate-limit error on every
attempt, used to evaluate the retry engines. -/
def alwaysRateLimited : Nat → Option ClientError :=
  fun _ => some rateLimitError

/-- A concrete operation that fails retryably on the first attempt and
succeeds on the second, used to evaluate the retry engines. -/
def succeedsOnSecondAttempt : Nat → Option ClientError :=
  fun attempt => if attempt = 0 then some rateLimitError else none

/-- A concrete conversation-capable client whose prompt call succeeds, used
to evaluate the fan-out executor. -/
def clientA : AIClient :=
  { name := "a",
    sendPrompt := fun prompt => ("A:" ++ prompt, none),
    sendConversation := fun _ => ("ok", none),
    supportsConversations := true }

/-- A concrete client that does not support conversations and whose prompt
call fails, used to evaluate the fan-out executor. -/
def clientB : AIClient :=
  { name := "b",
    sendPrompt := fun _ => ("", some rateLimitError),
    sendConversation := fun _ => ("", some rateLimitError),
    supportsConversations := false }

/-- A concrete client that does not support conversations and echoes its
prompt, used to evaluate the conversation fallback. -/
def clientC : AIClient :=
  { name := "c",
    sendPrompt := fun prompt => ("C:" ++ prompt, none),
    sendConversation := fun _ => ("", some rateLimitError),
    supportsConversations := false }

end ChatDelta

namespace ChatDelta

/-- Claim C3: for every ClientError, `IsRetryableError` is true exactly when
the kind is network, or the kind is api with code rate_limit or server_error,
and false for all auth, config, parse and stream kinds and all other api
codes; `IsAuthenticationError` is true exactly when the kind is auth; and both
classifications depend only on the (kind, code) pair, never on the message or
the wrapped cause. -/
theorem isRetryable_isAuth_classification (e : ClientError) :
    (IsRetryableError e =
      (e.type == ErrorType.network ||
        (e.type == ErrorType.api &&
          (e.code == "rate_limit" || e.code == "server_error")))) ∧
    (IsAuthenticationError e = (e.type == ErrorType.auth)) ∧
    (∀ e' : ClientError, e.type = e'.type → e.code = e'.code →
      IsRetryableError e = IsRetryableError e' ∧
      IsAuthenticationError e = IsAuthenticationError e') := by
  refine ⟨?_, rfl, ?_⟩
  · cases h : e.type <;> simp [IsRetryableError, h]
  · intro e' hty hcode
    constructor
    · simp [IsRetryableError, hty, hcode]
    · simp [IsAuthenticationError, hty]

/-- Witness for C3 at a concrete input: a rate-limit api error and a variant
differing only in message and cause classify identically, and the concrete
classification values follow from the theorem. -/
theorem isRetryable_isAuth_classification_witness :
    IsRetryableError ⟨ErrorType.api, "rate_limit", "m1", none⟩ =
      IsRetryableError ⟨ErrorType.api, "rate_limit", "m2", some "cause"⟩ ∧
    IsAuthenticationError ⟨ErrorType.api, "rate_limit", "m1", none⟩ =
      IsAuthenticationError ⟨ErrorType.api, "rate_limit", "m2", some "cause"⟩ :=
  (isRetryable_isAuth_classification ⟨ErrorType.api, "rate_limit", "m1", none⟩).2.2
    ⟨ErrorType.api, "rate_limit", "m2", some "cause"⟩ rfl rfl

end ChatDelta

namespace ChatDelta

/-- Shared helper: the rollback snippet undoes exactly one appended
message. -/
theorem rollbackLastMessage_AddMessage (c : Conversation)
    (role content : String) :
    rollbackLastMessage (c.AddMessage role content) = c := by
  simp [rollbackLastMessage, Conversation.AddMessage]

/-- Shared helper: draining a chunk sequence that holds no finished chunk
commits nothing to the conversation. -/
theorem streamDrain_no_finished (chunks : List StreamChunk) :
    ∀ (conv : Conversation) (acc : String),
    (∀ ch ∈ chunks, ch.Finished = false) →
    streamDrain conv acc chunks = conv := by
  induction chunks with
  | nil => intro conv acc _; rfl
  | cons chunk rest ih =>
      intro conv acc h
      have hc : chunk.Finished = false := h chunk (List.mem_cons_self _ _)
      simp only [streamDrain, hc, if_neg Bool.false_ne_true]
      exact ih _ _ fun ch hm => h ch (List.mem_cons_of_mem _ hm)

/-- Claim C1: whenever the client call fails, `Send` and `SendWithMetadata`
leave the session conversation exactly as it was before the call (the
optimistically appended user message removed) and return the client error to
the caller. -/
theorem sessionSend_failure_exact_rollback
    (conv : Conversation) (message : String)
    (sendConversation : Conversation → String × Option ClientError)
    (sendMeta : Conversation → Except ClientError AiResponse)
    (e e' : ClientError)
    (h : (sendConversation (conv.AddUserMessage message)).2 = some e)
    (h' : sendMeta (conv.AddUserMessage message) = Except.error e') :
    sessionSend conv message sendConversation = (conv, "", some e) ∧
    sessionSendWithMetadata conv message sendMeta =
      (conv, Except.error e') := by
  constructor
  · simp only [Conversation.AddUserMessage] at h
    simp only [sessionSend, Conversation.AddUserMessage,
      rollbackLastMessage_AddMessage, h]
  · simp only [Conversation.AddUserMessage] at h'
    simp only [sessionSendWithMetadata, Conversation.AddUserMessage,
      rollbackLastMessage_AddMessage, h']

/-- Witness for C1: a client that always fails with an auth error rolls a
one-message conversation back exactly. -/
theorem sessionSend_failure_exact_rollback_witness :
    sessionSend (Conversation.mk [Message.mk "system" "s"]) "hi"
        (fun _ => ("", some (ClientError.mk ErrorType.auth "invalid_api_key" "bad" none))) =
      (Conversation.mk [Message.mk "system" "s"], "",
        some (ClientError.mk ErrorType.auth "invalid_api_key" "bad" none)) ∧
    sessionSendWithMetadata (Conversation.mk [Message.mk "system" "s"]) "hi"
        (fun _ => Except.error (ClientError.mk ErrorType.auth "invalid_api_key" "bad" none)) =
      (Conversation.mk [Message.mk "system" "s"],
        Except.error (ClientError.mk ErrorType.auth "invalid_api_key" "bad" none)) :=
  sessionSend_failure_exact_rollback
    (Conversation.mk [Message.mk "system" "s"]) "hi"
    (fun _ => ("", some (ClientError.mk ErrorType.auth "invalid_api_key" "bad" none)))
    (fun _ => Except.error (ClientError.mk ErrorType.auth "invalid_api_key" "bad" none))
    (ClientError.mk ErrorType.auth "invalid_api_key" "bad" none)
    (ClientError.mk ErrorType.auth "invalid_api_key" "bad" none)
    rfl rfl

/-- Claim C8 counterexample: a Stream whose chunk sequence ends without any
chunk having `Finished = true` propagates no error, yet leaves the session
conversation ending with the unanswered appended user message, which is
neither removed nor followed by an assistant message. -/
theorem sessionStream_dangling_user_counterexample :
    (sessionStream (Conversation.mk []) "hi"
        (fun _ => Except.ok [StreamChunk.mk "a" false none])) =
      (Conversation.mk [Message.mk "user" "hi"], none) ∧
    (sessionStream (Conversation.mk []) "hi"
        (fun _ => Except.ok [StreamChunk.mk "a" false none])).1.Messages.getLast?
      = some (Message.mk "user" "hi") := by
  constructor <;> rfl

/-- Claim C8 as amended: after any ChatSession operation that returns an
error the conversation is restored exactly to its pre-call state, so it never
ends with the unanswered appended user message; a Stream whose chunk sequence
contains no chunk with `Finished = true`, however, propagates no error,
commits no assistant message, and leaves the appended user message as the
last message of the conversation. -/
theorem session_error_conversation_integrity
    (conv : Conversation) (message : String)
    (sendConversation : Conversation → String × Option ClientError)
    (sendMeta : Conversation → Except ClientError AiResponse)
    (streamConversation :
      Conversation → Except ClientError (List StreamChunk))
    (e1 e2 e3 : ClientError) (chunks : List StreamChunk) :
    ((sendConversation (conv.AddUserMessage message)).2 = some e1 →
      (sessionSend conv message sendConversation).1 = conv) ∧
    (sendMeta (conv.AddUserMessage message) = Except.error e2 →
      (sessionSendWithMetadata conv message sendMeta).1 = conv) ∧
    (streamConversation (conv.AddUserMessage message) = Except.error e3 →
      (sessionStream conv message streamConversation).1 = conv) ∧
    (streamConversation (conv.AddUserMessage message) = Except.ok chunks →
      (∀ ch ∈ chunks, ch.Finished = false) →
      (sessionStream conv message streamConversation).1 =
        conv.AddUserMessage message) := by
  refine ⟨?_, ?_, ?_, ?_⟩
  · intro h
    simp only [Conversation.AddUserMessage] at h
    simp only [sessionSend, Conversation.AddUserMessage,
      rollbackLastMessage_AddMessage, h]
  · intro h
    simp only [Conversation.AddUserMessage] at h
    simp only [sessionSendWithMetadata, Conversation.AddUserMessage,
      rollbackLastMessage_AddMessage, h]
  · intro h
    simp only [Conversation.AddUserMessage] at h
    simp only [sessionStream, Conversation.AddUserMessage,
      rollbackLastMessage_AddMessage, h]
  · intro h hnf
    simp only [Conversation.AddUserMessage] at h
    simp only [sessionStream, Conversation.AddUserMessage, h]
    exact streamDrain_no_finished chunks _ "" hnf

/-- Witness for the amended C8: concrete failing send, failing stream start,
and an unterminated chunk sequence, each behaving as stated. -/
theorem session_error_conversation_integrity_witness :
    (sessionSend (Conversation.mk []) "q"
        (fun _ => ("", some (NewConfigError "boom")))).1 =
      Conversation.mk [] ∧
    (sessionStream (Conversation.mk []) "q"
        (fun _ => Except.ok [StreamChunk.mk "a" false none])).1 =
      (Conversation.mk []).AddUserMessage "q" := by
  constructor
  · exact (session_error_conversation_integrity (Conversation.mk []) "q"
      (fun _ => ("", some (NewConfigError "boom")))
      (fun _ => Except.error (NewConfigError "boom"))
      (fun _ => Except.ok [StreamChunk.mk "a" false none])
      (NewConfigError "boom") (NewConfigError "boom") (NewConfigError "boom")
      [StreamChunk.mk "a" false none]).1 rfl
  · exact (session_error_conversation_integrity (Conversation.mk []) "q"
      (fun _ => ("", some (NewConfigError "boom")))
      (fun _ => Except.error (NewConfigError "boom"))
      (fun _ => Except.ok [StreamChunk.mk "a" false none])
      (NewConfigError "boom") (NewConfigError "boom") (NewConfigError "boom")
      [StreamChunk.mk "a" false none]).2.2.2 rfl
      (by intro ch hm; simp at hm; subst hm; rfl)

end ChatDelta

namespace ChatDelta

/-- Shared helper: every retry-loop run invokes the operation at least once,
at most `remaining + 1` times, and performs exactly one fewer delay than
invocations (so never a delay after the final invocation). -/
theorem retryLoop_count (op : Nat → Option ClientError)
    (delayFn : Nat → Nat) :
    ∀ (remaining attempt : Nat),
      1 ≤ (retryLoop op delayFn attempt remaining).invocations ∧
      (retryLoop op delayFn attempt remaining).invocations ≤ remaining + 1 ∧
      (retryLoop op delayFn attempt remaining).delays.length + 1 =
        (retryLoop op delayFn attempt remaining).invocations := by
  intro remaining
  induction remaining with
  | zero =>
      intro attempt
      cases h : op attempt <;> simp [retryLoop, h]
  | succ r ih =>
      intro attempt
      cases h : op attempt with
      | none => simp [retryLoop, h]
      | some e =>
          by_cases hr : IsRetryableError e
          · have h1 := (ih (attempt + 1)).1
            have h2 := (ih (attempt + 1)).2.1
            have h3 := (ih (attempt + 1)).2.2
            simp only [retryLoop, h, hr, if_true, List.length_cons]
            omega
          · simp [retryLoop, h, hr]

/-- Shared helper: the delays of a retry-loop run are exactly the delay
formula evaluated at the successive attempt counters. -/
theorem retryLoop_delays (op : Nat → Option ClientError)
    (delayFn : Nat → Nat) :
    ∀ (remaining attempt : Nat),
      (retryLoop op delayFn attempt remaining).delays =
        (List.range
            ((retryLoop op delayFn attempt remaining).invocations - 1)).map
          (fun i => delayFn (attempt + i)) := by
  intro remaining
  induction remaining with
  | zero =>
      intro attempt
      cases h : op attempt <;> simp [retryLoop, h]
  | succ r ih =>
      intro attempt
      cases h : op attempt with
      | none => simp [retryLoop, h]
      | some e =>
          by_cases hr : IsRetryableError e
          · have hcount := (retryLoop_count op delayFn r (attempt + 1)).1
            obtain ⟨k, hk⟩ :
                ∃ k, (retryLoop op delayFn (attempt + 1) r).invocations
                  = k + 1 := ⟨_, (Nat.succ_pred_eq_of_pos hcount).symm⟩
            simp only [retryLoop, h, hr, if_true, ih (attempt + 1), hk,
              Nat.add_sub_cancel, List.range_succ_eq_map, List.map_cons,
              List.map_map, Nat.add_zero]
            congr 1
            apply List.map_congr_left
            intro i _
            simp only [Function.comp_apply]
            congr 1
            omega
          · simp [retryLoop, h, hr]

/-- Shared helper: if the first `k` attempts fail retryably, the attempt
numbered `k` decides the outcome — a success there ends the run with result
`none` after exactly `k + 1` invocations, and a non-retryable error there
ends the run with that error after exactly `k + 1` invocations. -/
theorem retryLoop_decided_at (op : Nat → Option ClientError)
    (delayFn : Nat → Nat) :
    ∀ (k remaining attempt : Nat),
      (∀ j, j < k → ∃ e, op (attempt + j) = some e ∧
        IsRetryableError e = true) →
      k ≤ remaining →
      (op (attempt + k) = none →
        (retryLoop op delayFn attempt remaining).result = none ∧
        (retryLoop op delayFn attempt remaining).invocations = k + 1) ∧
      (∀ e, op (attempt + k) = some e → IsRetryableError e = false →
        (retryLoop op delayFn attempt remaining).result = some e ∧
        (retryLoop op delayFn attempt remaining).invocations = k + 1) := by
  intro k
  induction k with
  | zero =>
      intro remaining attempt _ _
      constructor
      · intro hk
        rw [Nat.add_zero] at hk
        cases remaining <;> simp [retryLoop, hk]
      · intro e hk hnr
        rw [Nat.add_zero] at hk
        cases remaining <;> simp [retryLoop, hk, hnr]
  | succ k ih =>
      intro remaining attempt hpre hle
      obtain ⟨e0, he0, hr0⟩ := hpre 0 (Nat.succ_pos k)
      rw [Nat.add_zero] at he0
      obtain ⟨r, rfl⟩ : ∃ r, remaining = r + 1 :=
        ⟨remaining - 1, by omega⟩
      have hpre' : ∀ j, j < k → ∃ e, op (attempt + 1 + j) = some e ∧
          IsRetryableError e = true := by
        intro j hj
        obtain ⟨e, he, hre⟩ := hpre (j + 1) (by omega)
        have hidx : attempt + 1 + j = attempt + (j + 1) := by omega
        rw [hidx]
        exact ⟨e, he, hre⟩
      have hih := ih r (attempt + 1) hpre' (by omega)
      have hshift : attempt + 1 + k = attempt + (k + 1) := by omega
      constructor
      · intro hk
        rw [← hshift] at hk
        have hres := hih.1 hk
        simp only [retryLoop, he0, hr0, if_true]
        exact ⟨hres.1, by rw [hres.2]⟩
      · intro e hk hnr
        rw [← hshift] at hk
        have hres := hih.2 e hk hnr
        simp only [retryLoop, he0, hr0, if_true]
        exact ⟨hres.1, by rw [hres.2]⟩

/-- Claim C2: for every `retries` and operation, `ExecuteWithRetry` invokes
the operation at most `retries + 1` times; it performs exactly one fewer
delay than invocations, so never a delay after the final invocation; after
retryable failures on all earlier attempts, a first success ends the run
immediately with the Go `nil` result and a non-retryable error ends it
immediately with that error and no further invocations; and with
`retries = 0` the operation is invoked exactly once. -/
theorem executeWithRetry_attempt_discipline (retries : Nat)
    (op : Nat → Option ClientError) :
    (ExecuteWithRetry retries op).invocations ≤ retries + 1 ∧
    (ExecuteWithRetry retries op).delays.length + 1 =
      (ExecuteWithRetry retries op).invocations ∧
    (∀ k, k ≤ retries →
      (∀ j, j < k → ∃ e, op j = some e ∧ IsRetryableError e = true) →
      (op k = none →
        (ExecuteWithRetry retries op).result = none ∧
        (ExecuteWithRetry retries op).invocations = k + 1) ∧
      (∀ e, op k = some e → IsRetryableError e = false →
        (ExecuteWithRetry retries op).result = some e ∧
        (ExecuteWithRetry retries op).invocations = k + 1)) ∧
    (retries = 0 → (ExecuteWithRetry retries op).invocations = 1) := by
  refine ⟨(retryLoop_count op _ retries 0).2.1,
    (retryLoop_count op _ retries 0).2.2, ?_, ?_⟩
  · intro k hk hpre
    have := retryLoop_decided_at op (fun attempt => (attempt + 1) * second)
      k retries 0 (by simpa using hpre) hk
    simpa using this
  · intro h
    subst h
    have h1 := (retryLoop_count op (fun attempt => (attempt + 1) * second)
      0 0).1
    have h2 := (retryLoop_count op (fun attempt => (attempt + 1) * second)
      0 0).2.1
    exact Nat.le_antisymm h2 h1

/-- Witness for C2: with a first-attempt rate-limit failure and a
second-attempt success, `ExecuteWithRetry 3` stops after two invocations
with the nil result, and `ExecuteWithRetry 0` performs exactly one
invocation. -/
theorem executeWithRetry_attempt_discipline_witness :
    (ExecuteWithRetry 3 succeedsOnSecondAttempt).result = none ∧
    (ExecuteWithRetry 3 succeedsOnSecondAttempt).invocations = 2 ∧
    (ExecuteWithRetry 0 alwaysRateLimited).invocations = 1 := by
  have h := (executeWithRetry_attempt_discipline 3
      succeedsOnSecondAttempt).2.2.1 1 (by omega)
    (fun j hj => by
      interval_cases j
      exact ⟨rateLimitError, rfl, by decide⟩)
  have hsucc : succeedsOnSecondAttempt 1 = none := rfl
  have h0 := (executeWithRetry_attempt_discipline 0 alwaysRateLimited).2.2.2
    rfl
  exact ⟨(h.1 hsucc).1, (h.1 hsucc).2, h0⟩

end ChatDelta

namespace ChatDelta

/-- Shared helper: the two's-complement wrap fixes every value already in
the signed 64-bit range. -/
theorem int64wrap_eq_self (n : Int) (h1 : -(2 ^ 63) ≤ n) (h2 : n < 2 ^ 63) :
    int64wrap n = n := by
  rw [int64wrap, Int.emod_eq_of_lt (by omega) (by omega)]
  omega

/-- Shared helper: every backoff-loop run invokes the operation at least
once and performs exactly one fewer delay than invocations. -/
theorem backoffLoop_count (op : Nat → Option ClientError)
    (delayFn : Nat → Int) :
    ∀ (remaining attempt : Nat),
      1 ≤ (backoffLoop op delayFn attempt remaining).invocations ∧
      (backoffLoop op delayFn attempt remaining).delays.length + 1 =
        (backoffLoop op delayFn attempt remaining).invocations := by
  intro remaining
  induction remaining with
  | zero =>
      intro attempt
      cases h : op attempt <;> simp [backoffLoop, h]
  | succ r ih =>
      intro attempt
      cases h : op attempt with
      | none => simp [backoffLoop, h]
      | some e =>
          by_cases hr : IsRetryableError e
          · have h1 := (ih (attempt + 1)).1
            have h2 := (ih (attempt + 1)).2
            simp only [backoffLoop, h, hr, if_true, List.length_cons]
            omega
          · simp [backoffLoop, h, hr]

/-- Shared helper: the delays of a backoff-loop run are exactly the delay
formula evaluated at the successive attempt counters. -/
theorem backoffLoop_delays (op : Nat → Option ClientError)
    (delayFn : Nat → Int) :
    ∀ (remaining attempt : Nat),
      (backoffLoop op delayFn attempt remaining).delays =
        (List.range
            ((backoffLoop op delayFn attempt remaining).invocations - 1)).map
          (fun i => delayFn (attempt + i)) := by
  intro remaining
  induction remaining with
  | zero =>
      intro attempt
      cases h : op attempt <;> simp [backoffLoop, h]
  | succ r ih =>
      intro attempt
      cases h : op attempt with
      | none => simp [backoffLoop, h]
      | some e =>
          by_cases hr : IsRetryableError e
          · have hcount := (backoffLoop_count op delayFn r (attempt + 1)).1
            obtain ⟨k, hk⟩ :
                ∃ k, (backoffLoop op delayFn (attempt + 1) r).invocations
                  = k + 1 := ⟨_, (Nat.succ_pred_eq_of_pos hcount).symm⟩
            simp only [backoffLoop, h, hr, if_true, ih (attempt + 1), hk,
              Nat.add_sub_cancel, List.range_succ_eq_map, List.map_cons,
              List.map_map, Nat.add_zero]
            congr 1
            apply List.map_congr_left
            intro i _
            simp only [Function.comp_apply]
            congr 1
            omega
          · simp [backoffLoop, h, hr]

/-- Shared helper: while the int64 product stays in range (and the base
delay is nonnegative), the exponential delay is the capped formula. -/
theorem exponentialBackoffDelay_of_no_overflow (baseDelay : Int)
    (attempt : Nat) (hbase : 0 ≤ baseDelay)
    (hfit : 2 ^ attempt * baseDelay < 2 ^ 63) :
    exponentialBackoffDelay baseDelay attempt =
      min (baseDelay * 2 ^ attempt) (30 * (second : Int)) := by
  have hv : pow2Duration attempt * baseDelay = 2 ^ attempt * baseDelay := by
    rcases eq_or_lt_of_le hbase with hb | hb
    · rw [← hb, Int.mul_zero, Int.mul_zero]
    · have ha : attempt ≤ 62 := by
        by_contra hc
        push_neg at hc
        have h1 : (2 : Int) ^ 63 ≤ 2 ^ attempt :=
          pow_le_pow_right (by norm_num) (by omega)
        have h2 : (2 : Int) ^ attempt * 1 ≤ 2 ^ attempt * baseDelay := by
          apply mul_le_mul_of_nonneg_left (by omega) (by positivity)
        rw [mul_one] at h2
        linarith
      rw [pow2Duration, if_pos ha]
  have hnn : (0 : Int) ≤ 2 ^ attempt * baseDelay :=
    mul_nonneg (by positivity) hbase
  have hlb : -(2 ^ 63 : Int) ≤ 2 ^ attempt * baseDelay := by
    have hp : (0 : Int) ≤ 2 ^ 63 := by positivity
    linarith
  rw [exponentialBackoffDelay, hv, int64wrap_eq_self _ hlb hfit,
    mul_comm baseDelay ((2 : Int) ^ attempt)]
  rcases le_or_lt (2 ^ attempt * baseDelay) (30 * (second : Int)) with
    hle | hlt
  · rw [if_neg (not_lt.mpr hle), min_eq_left hle]
  · rw [if_pos hlt, min_eq_right (le_of_lt hlt)]

/-- Claim C6 counterexample: with a one-second base delay and persistent
retryable failures, the delay before attempt 34 is reached and the int64
product 2 to the 34 times one second wraps negative, escaping the 30-second
cap: that delay is not the claimed capped formula, and it is strictly
smaller than the 30-second delay before attempt 33, so the delay sequence
is not monotonically non-decreasing and the claimed equality fails. -/
theorem executeWithExponentialBackoff_overflow_counterexample :
    (ExecuteWithExponentialBackoff 35 (1000000000 : Int)
        alwaysRateLimited).delays.get? 33 = some (30 * (second : Int)) ∧
    (ExecuteWithExponentialBackoff 35 (1000000000 : Int)
        alwaysRateLimited).delays.get? 34 =
      some (-1266874889709551616) ∧
    (-1266874889709551616 : Int) < 30 * (second : Int) ∧
    (-1266874889709551616 : Int) ≠
      min ((1000000000 : Int) * 2 ^ 34) (30 * (second : Int)) := by
  refine ⟨by decide, by decide, by decide, by decide⟩

/-- Claim C6 as amended: in `ExecuteWithExponentialBackoff` with a
nonnegative base delay, for every attempt number whose int64 product
`baseDelay * 2 ^ attempt` does not overflow (stays below `2 ^ 63`), the
delay waited before the next retry equals that product capped at 30
seconds; within that overflow-free range consecutive delays are
monotonically non-decreasing and no delay exceeds the 30-second cap. Once
the product overflows, the wrapped delay can be negative, escaping the cap
and breaking monotonicity. -/
theorem executeWithExponentialBackoff_capped_until_overflow
    (retries : Nat) (baseDelay : Int) (op : Nat → Option ClientError)
    (hbase : 0 ≤ baseDelay) :
    (∀ i,
      i < (ExecuteWithExponentialBackoff retries baseDelay op).delays.length →
      2 ^ i * baseDelay < 2 ^ 63 →
      (ExecuteWithExponentialBackoff retries baseDelay op).delays.get? i =
        some (min (baseDelay * 2 ^ i) (30 * (second : Int)))) ∧
    (∀ i d d', 2 ^ (i + 1) * baseDelay < 2 ^ 63 →
      (ExecuteWithExponentialBackoff retries baseDelay op).delays.get? i =
        some d →
      (ExecuteWithExponentialBackoff retries baseDelay op).delays.get? (i + 1)
        = some d' →
      d ≤ d') ∧
    (∀ i d, 2 ^ i * baseDelay < 2 ^ 63 →
      (ExecuteWithExponentialBackoff retries baseDelay op).delays.get? i =
        some d →
      d ≤ 30 * (second : Int)) := by
  have hdel := backoffLoop_delays op (exponentialBackoffDelay baseDelay)
    retries 0
  have hget : ∀ i,
      i < (ExecuteWithExponentialBackoff retries baseDelay op).delays.length →
      (ExecuteWithExponentialBackoff retries baseDelay op).delays.get? i =
        some (exponentialBackoffDelay baseDelay i) := by
    intro i hi
    rw [ExecuteWithExponentialBackoff, hdel] at hi ⊢
    rw [List.get?_map]
    rw [List.length_map, List.length_range] at hi
    rw [List.get?_range hi]
    simp
  refine ⟨?_, ?_, ?_⟩
  · intro i hi hfit
    rw [hget i hi,
      exponentialBackoffDelay_of_no_overflow baseDelay i hbase hfit]
  · intro i d d' hfit hd hd'
    have hi : i < (ExecuteWithExponentialBackoff retries baseDelay
        op).delays.length := by
      by_contra hcon
      rw [List.get?_eq_none.mpr (by omega)] at hd
      exact Option.noConfusion hd
    have hi' : i + 1 < (ExecuteWithExponentialBackoff retries baseDelay
        op).delays.length := by
      by_contra hcon
      rw [List.get?_eq_none.mpr (by omega)] at hd'
      exact Option.noConfusion hd'
    have hstep : (2 : Int) ^ i ≤ 2 ^ (i + 1) :=
      pow_le_pow_right (by norm_num) (by omega)
    have hfit_i : 2 ^ i * baseDelay < 2 ^ 63 := by
      have hmul : (2 : Int) ^ i * baseDelay ≤ 2 ^ (i + 1) * baseDelay :=
        mul_le_mul_of_nonneg_right hstep hbase
      linarith
    rw [hget i hi] at hd
    rw [hget (i + 1) hi'] at hd'
    cases hd
    cases hd'
    rw [exponentialBackoffDelay_of_no_overflow baseDelay i hbase hfit_i,
      exponentialBackoffDelay_of_no_overflow baseDelay (i + 1) hbase hfit]
    apply min_le_min _ (le_refl _)
    exact mul_le_mul_of_nonneg_left hstep hbase
  · intro i d hfit hd
    have hi : i < (ExecuteWithExponentialBackoff retries baseDelay
        op).delays.length := by
      by_contra hcon
      rw [List.get?_eq_none.mpr (by omega)] at hd
      exact Option.noConfusion hd
    rw [hget i hi] at hd
    cases hd
    rw [exponentialBackoffDelay_of_no_overflow baseDelay i hbase hfit]
    exact min_le_right _ _

/-- Witness for the amended C6: with a one-second base delay and two
retryable failures, the first delay is exactly the capped formula at
attempt 0, and the second delay of two seconds is under the cap. -/
theorem executeWithExponentialBackoff_capped_until_overflow_witness :
    (ExecuteWithExponentialBackoff 2 (1000000000 : Int)
        alwaysRateLimited).delays.get? 0 =
      some (min ((1000000000 : Int) * 2 ^ 0) (30 * (second : Int))) ∧
    (2000000000 : Int) ≤ 30 * (second : Int) := by
  constructor
  · exact (executeWithExponentialBackoff_capped_until_overflow 2 1000000000
      alwaysRateLimited (by norm_num)).1 0 (by decide) (by norm_num)
  · exact (executeWithExponentialBackoff_capped_until_overflow 2 1000000000
      alwaysRateLimited (by norm_num)).2.2 1 2000000000 (by norm_num)
      (by decide)

/-- Claim C7 evaluation at the failing input: `ExecuteWithRetry` takes no
retry strategy and no base delay; on an operation that keeps failing with a
retryable rate-limit error and `retries = 2` its inter-attempt delays are
the hardwired one-second-based linear sequence 1s, 2s — not the constant
`baseDelay` the fixed strategy of the retry policy prescribes, whatever
strategy or base delay the configuration carries (no code consumes the
`RetryStrategy` field). -/
theorem executeWithRetry_hardwired_delays :
    (ExecuteWithRetry 2 alwaysRateLimited).delays =
      [1 * second, 2 * second] ∧
    (NewClientConfig.RetryStrategy = "exponential") := by
  constructor
  · rfl
  · rfl

end ChatDelta

namespace ChatDelta

/-- Claim C4: for every client list and prompt or conversation, the fan-out
executors return exactly one result slot per client; slot i carries the name
and the result-or-error pair produced by the call of client i itself, so no
other client (failing or not) can alter it. Completion order does not exist
in the model: each slot is a pure function of its own client, which is the
positional-stability guarantee. -/
theorem executeParallel_positional_stability (clients : List AIClient)
    (prompt : String) (conversation : Conversation) :
    (ExecuteParallel clients prompt).length = clients.length ∧
    (ExecuteParallelConversation clients conversation).length =
      clients.length ∧
    (∀ i c, clients.get? i = some c →
      (ExecuteParallel clients prompt).get? i =
        some { ClientName := c.name, Result := (c.sendPrompt prompt).1,
               Error := (c.sendPrompt prompt).2 }) ∧
    (∀ i c, clients.get? i = some c →
      (ExecuteParallelConversation clients conversation).get? i =
        some (conversationSlot conversation c)) := by
  refine ⟨List.length_map _ _, List.length_map _ _, ?_, ?_⟩
  · intro i c h
    rw [ExecuteParallel, List.get?_map, h]
    rfl
  · intro i c h
    rw [ExecuteParallelConversation, List.get?_map, h]
    rfl

/-- Witness for C4: a two-client fan-out where the second client fails
still yields two slots, the first slot holding the success of client one
and the second the failure of client two. -/
theorem executeParallel_positional_stability_witness :
    (ExecuteParallel [clientA, clientB] "p").get? 0 =
      some { ClientName := "a", Result := "A:p", Error := none } ∧
    (ExecuteParallel [clientA, clientB] "p").get? 1 =
      some { ClientName := "b", Result := "",
             Error := some rateLimitError } := by
  constructor
  · exact (executeParallel_positional_stability [clientA, clientB] "p"
      NewConversation).2.2.1 0 clientA rfl
  · exact (executeParallel_positional_stability [clientA, clientB] "p"
      NewConversation).2.2.1 1 clientB rfl

/-- Claim C5: in the conversation fan-out, a client that does not support
conversations is sent only the content of the last message via its prompt
call when that message has role user; an empty conversation or a last
message of another role instead yields a config-kind error in that slot,
and the fan-out still produces one slot per client. -/
theorem executeParallelConversation_fallback (conversation : Conversation)
    (c : AIClient) (clients : List AIClient)
    (h : c.supportsConversations = false) :
    (∀ lastMessage, conversation.Messages.getLast? = some lastMessage →
      lastMessage.role = "user" →
      conversationSlot conversation c =
        { ClientName := c.name,
          Result := (c.sendPrompt lastMessage.content).1,
          Error := (c.sendPrompt lastMessage.content).2 }) ∧
    (conversation.Messages = [] →
      conversationSlot conversation c =
        { ClientName := c.name, Result := "",
          Error := some (NewConfigError "empty conversation") }) ∧
    (∀ lastMessage, conversation.Messages.getLast? = some lastMessage →
      lastMessage.role ≠ "user" →
      conversationSlot conversation c =
        { ClientName := c.name, Result := "",
          Error := some
            (NewConfigError "no user message found in conversation") }) ∧
    (NewConfigError "empty conversation").type = ErrorType.config ∧
    (NewConfigError "no user message found in conversation").type =
      ErrorType.config ∧
    (ExecuteParallelConversation clients conversation).length =
      clients.length := by
  refine ⟨?_, ?_, ?_, rfl, rfl, List.length_map _ _⟩
  · intro lastMessage hlast hrole
    simp only [conversationSlot, h, if_false, Bool.false_eq_true, hlast,
      hrole, beq_self_eq_true, if_true]
  · intro hempty
    simp only [conversationSlot, h, Bool.false_eq_true, if_false,
      hempty, List.getLast?_nil]
  · intro lastMessage hlast hrole
    have hbeq : (lastMessage.role == "user") = false :=
      beq_eq_false_iff_ne.mpr hrole
    simp only [conversationSlot, h, Bool.false_eq_true, if_false, hlast,
      hbeq]

/-- Witness for C5: against a non-conversation-capable client, a
conversation ending in a user message falls back to the prompt call on that
content, one ending in an assistant message yields the config error, and an
empty conversation yields the config error. -/
theorem executeParallelConversation_fallback_witness :
    conversationSlot (Conversation.mk [Message.mk "user" "hi"]) clientC =
      { ClientName := "c", Result := "C:hi", Error := none } ∧
    conversationSlot (Conversation.mk [Message.mk "assistant" "yo"]) clientC
      = { ClientName := "c", Result := "",
          Error := some
            (NewConfigError "no user message found in conversation") } ∧
    conversationSlot (Conversation.mk []) clientC =
      { ClientName := "c", Result := "",
        Error := some (NewConfigError "empty conversation") } := by
  refine ⟨?_, ?_, ?_⟩
  · exact (executeParallelConversation_fallback
      (Conversation.mk [Message.mk "user" "hi"]) clientC [] rfl).1
      (Message.mk "user" "hi") rfl rfl
  · exact (executeParallelConversation_fallback
      (Conversation.mk [Message.mk "assistant" "yo"]) clientC [] rfl).2.2.1
      (Message.mk "assistant" "yo") rfl (by decide)
  · exact (executeParallelConversation_fallback
      (Conversation.mk []) clientC [] rfl).2.1 rfl

end ChatDelta

namespace ChatDelta

/-- Shared helper: joining a non-empty list of strings prepends its head. -/
theorem stringJoin_cons (s : String) (l : List String) :
    String.join (s :: l) = s ++ String.join l := by
  apply String.ext
  simp [String.data_join]

/-- Claim C9: for every finite chunk sequence, `MergeStreamChunks` returns
the in-order concatenation of the contents of the chunks up to and
including the first finished chunk together with the Go `nil` error; chunks
past the first finished chunk are never read; and the concrete example
merges to the expected string. -/
theorem mergeStreamChunks_law :
    (∀ chunks : List StreamChunk,
      MergeStreamChunks chunks =
        (String.join ((chunksUpToFirstFinished chunks).map
          StreamChunk.Content), none)) ∧
    (∀ (chunks extra : List StreamChunk),
      chunks.any (fun ch => ch.Finished) = true →
      MergeStreamChunks (chunks ++ extra) = MergeStreamChunks chunks) ∧
    MergeStreamChunks [StreamChunk.mk "Hello " false none,
      StreamChunk.mk "World!" false none, StreamChunk.mk "" true none] =
      ("Hello World!", none) := by
  refine ⟨?_, ?_, by decide⟩
  · intro chunks
    induction chunks with
    | nil => rfl
    | cons c rest ih =>
        by_cases hf : c.Finished
        · simp [MergeStreamChunks, chunksUpToFirstFinished, hf,
            stringJoin_cons, String.join, String.append_empty]
        · simp [MergeStreamChunks, chunksUpToFirstFinished, hf,
            stringJoin_cons, ih]
  · intro chunks
    induction chunks with
    | nil =>
        intro extra h
        simp at h
    | cons c rest ih =>
        intro extra h
        by_cases hf : c.Finished
        · simp [MergeStreamChunks, List.cons_append, hf]
        · have hrest : rest.any (fun ch => ch.Finished) = true := by
            simpa [List.any_cons, hf] using h
          simp [MergeStreamChunks, List.cons_append, hf, ih extra hrest]

/-- Witness for C9: appending further chunks after the terminal chunk of
the example sequence does not change the merge. -/
theorem mergeStreamChunks_law_witness :
    MergeStreamChunks
      ([StreamChunk.mk "Hello " false none,
        StreamChunk.mk "World!" false none,
        StreamChunk.mk "" true none] ++
       [StreamChunk.mk "IGNORED" false none]) =
      MergeStreamChunks [StreamChunk.mk "Hello " false none,
        StreamChunk.mk "World!" false none,
        StreamChunk.mk "" true none] :=
  mergeStreamChunks_law.2.1 _ _ (by decide)

end ChatDelta

namespace ChatDelta

/-- Shared helper: the temperature guard fires exactly on a set value
outside [0, 2]. -/
theorem temperatureInvalid_iff (o : Option Rat) :
    temperatureInvalid o = true ↔ ∃ t, o = some t ∧ (t < 0 ∨ t > 2) := by
  cases o <;> simp [temperatureInvalid]

/-- Shared helper: the max-tokens guard fires exactly on a set non-positive
value. -/
theorem maxTokensInvalid_iff (o : Option Int) :
    maxTokensInvalid o = true ↔ ∃ m, o = some m ∧ m ≤ 0 := by
  cases o <;> simp [maxTokensInvalid]

/-- Shared helper: the top-p guard fires exactly on a set value outside
[0, 1]. -/
theorem topPInvalid_iff (o : Option Rat) :
    topPInvalid o = true ↔ ∃ p, o = some p ∧ (p < 0 ∨ p > 1) := by
  cases o <;> simp [topPInvalid]

/-- Shared helper: the penalty guard fires exactly on a set value outside
[-2, 2]. -/
theorem penaltyInvalid_iff (o : Option Rat) :
    penaltyInvalid o = true ↔ ∃ p, o = some p ∧ (p < -2 ∨ p > 2) := by
  cases o <;> simp [penaltyInvalid]

/-- Claim C10: `ValidateConfig` returns an error exactly when the timeout
is non-positive, or the retry count negative, or a set temperature outside
[0, 2], or a set max-tokens value non-positive, or a set top-p outside
[0, 1], or a set frequency or presence penalty outside [-2, 2]; and the
default config with temperature 1.0 and top-p 0.8 is accepted. -/
theorem validateConfig_rejection_law :
    (∀ config : ClientConfig,
      (ValidateConfig config).isSome = true ↔
        (config.Timeout ≤ 0 ∨ config.Retries < 0 ∨
         (∃ t, config.Temperature = some t ∧ (t < 0 ∨ t > 2)) ∨
         (∃ m, config.MaxTokens = some m ∧ m ≤ 0) ∨
         (∃ p, config.TopP = some p ∧ (p < 0 ∨ p > 1)) ∨
         (∃ f, config.FrequencyPenalty = some f ∧ (f < -2 ∨ f > 2)) ∨
         (∃ p, config.PresencePenalty = some p ∧ (p < -2 ∨ p > 2)))) ∧
    ValidateConfig ((NewClientConfig.SetTemperature 1).SetTopP (4/5)) =
      none := by
  constructor
  · intro config
    rw [ValidateConfig]
    split_ifs with h1 h2 h3 h4 h5 h6 h7
    · simp [h1]
    · simp [h2]
    · simp [(temperatureInvalid_iff config.Temperature).mp h3]
    · simp [(maxTokensInvalid_iff config.MaxTokens).mp h4]
    · simp [(topPInvalid_iff config.TopP).mp h5]
    · simp [(penaltyInvalid_iff config.FrequencyPenalty).mp h6]
    · simp [(penaltyInvalid_iff config.PresencePenalty).mp h7]
    · simp only [Option.isSome_none, Bool.false_eq_true, false_iff]
      push_neg
      refine ⟨by exact_mod_cast not_le.mp (by simpa using h1),
        by simpa using h2, ?_, ?_, ?_, ?_, ?_⟩
      · intro t ht
        have := (temperatureInvalid_iff config.Temperature).not.mp
          (by simpa using h3)
        push_neg at this
        exact this t ht
      · intro m hm
        have := (maxTokensInvalid_iff config.MaxTokens).not.mp
          (by simpa using h4)
        push_neg at this
        exact this m hm
      · intro p hp
        have := (topPInvalid_iff config.TopP).not.mp (by simpa using h5)
        push_neg at this
        exact this p hp
      · intro f hf
        have := (penaltyInvalid_iff config.FrequencyPenalty).not.mp
          (by simpa using h6)
        push_neg at this
        exact this f hf
      · intro p hp
        have := (penaltyInvalid_iff config.PresencePenalty).not.mp
          (by simpa using h7)
        push_neg at this
        exact this p hp
  · norm_num [ValidateConfig, NewClientConfig, ClientConfig.SetTemperature,
      ClientConfig.SetTopP, temperatureInvalid, maxTokensInvalid,
      topPInvalid, penaltyInvalid]

/-- Witness for C10: a config with a zero timeout is rejected, by the
rejection law at that concrete config. -/
theorem validateConfig_rejection_law_witness :
    (ValidateConfig { NewClientConfig with Timeout := 0 }).isSome = true :=
  (validateConfig_rejection_law.1 { NewClientConfig with Timeout := 0 }).mpr
    (Or.inl (by norm_num))

end ChatDelta
